import Mathlib

/-!
Shallow embedding of the genre-tagging batch tool (`mutagen-tagger.py`) and
proofs about its provider fallback chain, per-file processing pipeline,
report arithmetic and directory enumeration.

External collaborators (the tag library, the web/API clients) are modelled by
the values they hand back to the program: an adapter input is the source's
response (or the fact that the call raised), a file is the four tag fields the
tag collaborator would present plus whether reading and writing succeed.
All control flow downstream of those responses is translated directly from
the Python source.
-/

namespace MutagenTagger

/-- Python truthiness of an optional string: `None` and `""` are falsy,
every other string is truthy. -/
def truthy : Option String → Bool
  | none => false
  | some s => s != ""

/-- Python `str.title()` on a character list: an alphabetic character not
preceded by an alphabetic character is uppercased, one preceded by an
alphabetic character is lowercased, everything else passes through.
The boolean argument records whether the previous character was alphabetic. -/
def titleChars : Bool → List Char → List Char
  | _, [] => []
  | prevAlpha, c :: cs =>
    if c.isAlpha then
      (if prevAlpha then c.toLower else c.toUpper) :: titleChars true cs
    else
      c :: titleChars false cs

/-- Python `str.title()`. -/
def pyTitle (s : String) : String := ⟨titleChars false s.data⟩

/-- Python `str.lower()`. -/
def pyLower (s : String) : String := ⟨s.data.map Char.toLower⟩

/-- Python `str.strip()`: drop whitespace from both ends. -/
def pyStrip (s : String) : String :=
  ⟨((s.data.dropWhile Char.isWhitespace).reverse.dropWhile Char.isWhitespace).reverse⟩

/-- Python `s.endswith(e)`. -/
def pyEndsWith (s e : String) : Bool := decide (e.data <:+ s.data)

/-- The accumulator-based worker for `pySplitChars`: `acc` holds the current
field reversed. -/
def splitCharsAux (p : Char → Bool) : List Char → List Char → List String
  | [], acc => [⟨acc.reverse⟩]
  | c :: cs, acc =>
    if p c then ⟨acc.reverse⟩ :: splitCharsAux p cs []
    else splitCharsAux p cs (c :: acc)

/-- Splitting a string at every character satisfying `p`, keeping empty
fields — the behaviour of `re.split` with a single-character class. -/
def pySplitChars (p : Char → Bool) (s : String) : List String :=
  splitCharsAux p s.data []

/-- Python `sep.join(items)`. -/
def pyJoin (sep : String) : List String → String
  | [] => ""
  | [s] => s
  | s :: rest => s ++ sep ++ pyJoin sep rest

/-- A single adapter call as the resolver sees it: either the call raised
(`error`) or it returned an optional string. -/
abbrev AdapterResult := Except Unit (Option String)

/-- One entry of the provider chain built in `main`: the `(name, fn, client)`
triple, with the client already bound into the callable. -/
structure Provider where
  name : String
  fn : String → String → AdapterResult

/-- `get_genre(providers, artist, track)`: try each provider in order inside a
`try`/`except`, return the first truthy (`if result:`) result, `None` when the
list is exhausted. -/
def get_genre (providers : List Provider) (artist track : String) : Option String :=
  match providers with
  | [] => none
  | p :: rest =>
    match p.fn artist track with
    | .error _ => get_genre rest artist track
    | .ok result =>
      if truthy result then result else get_genre rest artist track

/-- `get_genre` instrumented with the list of provider names whose adapters
were invoked, in invocation order.  The first component is exactly the value
`get_genre` returns. -/
def get_genre_trace (providers : List Provider) (artist track : String) :
    Option String × List String :=
  match providers with
  | [] => (none, [])
  | p :: rest =>
    match p.fn artist track with
    | .error _ =>
      let r := get_genre_trace rest artist track
      (r.1, p.name :: r.2)
    | .ok result =>
      if truthy result then (result, [p.name])
      else
        let r := get_genre_trace rest artist track
        (r.1, p.name :: r.2)

/-- The value a single provider call contributes to the chain: a raised
exception or a falsy return are both "no result from this provider". -/
def callValue (r : AdapterResult) : Option String :=
  match r with
  | .error _ => none
  | .ok result => if truthy result then result else none

/-- What one attempt of the Spotify lookup comes back with. `found genres`
means the track search had items and the artist lookup returned `genres`
(possibly empty); `noItems` means the search result list was empty;
`rateLimit` is a `SpotifyException` with HTTP status 429 carrying the
`Retry-After` value; `apiErr` is any other `SpotifyException`; `exn` is any
other exception. -/
inductive SpotifyResponse where
  | found (genres : List String)
  | noItems
  | rateLimit (retryAfter : Nat)
  | apiErr
  | exn
deriving Repr, DecidableEq

/-- Either the call returned an optional genre string, or it is still inside
the retry recursion when the fuel runs out. -/
inductive SpotifyOutcome where
  | result (g : Option String)
  | hung
deriving Repr, DecidableEq

/-- `get_genre_spotify(sp, artist, track)`.  The source stream `resp` gives the
response of each successive attempt; the 429 branch sleeps and re-invokes the
same lookup recursively, with no retry cap, so the embedding is indexed by
fuel (`hung` for all fuel models the non-returning recursion).  The second
component counts the retries performed. -/
def get_genre_spotify (resp : Nat → SpotifyResponse) :
    Nat → Nat → SpotifyOutcome × Nat
  | 0, _ => (SpotifyOutcome.hung, 0)
  | fuel + 1, attempt =>
    match resp attempt with
    | .found genres =>
      if genres.isEmpty then (SpotifyOutcome.result none, 0)
      else (SpotifyOutcome.result (some (pyJoin ", " (genres.map pyTitle))), 0)
    | .noItems => (SpotifyOutcome.result none, 0)
    | .rateLimit _ =>
      let r := get_genre_spotify resp fuel (attempt + 1)
      (r.1, r.2 + 1)
    | .apiErr => (SpotifyOutcome.result none, 0)
    | .exn => (SpotifyOutcome.result none, 0)

/-- The Spotify lookup terminates against the response stream `resp`: some
finite recursion depth suffices for it to return. -/
def spotifyTerminates (resp : Nat → SpotifyResponse) : Prop :=
  ∃ fuel, (get_genre_spotify resp fuel 0).1 ≠ SpotifyOutcome.hung

/-- The stoplist of generic/meta tags filtered out by the Last.fm adapter. -/
def lastfm_skip : List String :=
  ["seen live", "favorites", "favourite", "love", "loved", "awesome",
   "great", "good", "best", "cool", "amazing", "beautiful", "classic"]

/-- `get_genre_lastfm(network, artist, track)` over the list of top-tag names
the source returns (`error` models any raised exception). -/
def get_genre_lastfm (resp : Except Unit (List String)) : Option String :=
  match resp with
  | .error _ => none
  | .ok tags =>
    let genres := tags.filter (fun t => !(lastfm_skip.contains (pyLower t)))
    if genres.isEmpty then none
    else some (pyJoin ", " (genres.map pyTitle))

/-- `get_genre_discogs(d_client, artist, track)`: `ok none` is an empty result
page, `ok (some (genres, styles))` a first release with those two lists. -/
def get_genre_discogs (resp : Except Unit (Option (List String × List String))) :
    Option String :=
  match resp with
  | .error _ => none
  | .ok none => none
  | .ok (some gs) =>
    let combined := gs.1 ++ gs.2
    if combined.isEmpty then none
    else some (pyJoin ", " (combined.map pyTitle))

/-- A `td` cell of the infobox genre row, after `sup` removal: the stripped
texts of its `li` elements, and `td.get_text(separator=' | ')` for the case
where there are no `li` elements. -/
structure WikiTd where
  lis : List String
  rawText : String
deriving Repr, DecidableEq

/-- One `tr` row of the infobox: the stripped `th` text when the row has a
`th`, and the `td` cell when it has one. -/
structure WikiRow where
  th : Option String
  td : Option WikiTd
deriving Repr, DecidableEq

/-- What the Wikipedia fetch observes: the search result titles, whether the
page request returned status 200, and the infobox rows when an infobox is
present. -/
structure WikiPage where
  searchResults : List String
  status200 : Bool
  infobox : Option (List WikiRow)
deriving Repr, DecidableEq

/-- The header test `'genre' in th.get_text(strip=True).lower()`. -/
def isGenreHeader (s : String) : Bool := decide ("genre".data <:+: (pyLower s).data)

/-- The row loop of `_fetch_wiki_genre`: scan rows for the first one whose
`th` contains "genre"; a genre row without a `td` returns `None`; otherwise
the items are the `li` texts, or `re.split(r'[\|,]', text)` when there are
none, and the stripped non-blank items are title-cased and comma-joined —
with no emptiness check on the joined list. -/
def wikiRowScan : List WikiRow → Option String
  | [] => none
  | r :: rest =>
    match r.th with
    | none => wikiRowScan rest
    | some thText =>
      if isGenreHeader thText then
        match r.td with
        | none => none
        | some td =>
          let items :=
            if td.lis.isEmpty then pySplitChars (fun c => c == '|' || c == ',') td.rawText
            else td.lis
          let genres := (items.filter (fun i => pyStrip i != "")).map (fun i => pyTitle (pyStrip i))
          some (pyJoin ", " genres)
      else wikiRowScan rest

/-- `_fetch_wiki_genre(query)` over the observed page (`error` models any
raised exception, which the function converts to `None`). -/
def _fetch_wiki_genre (page : Except Unit WikiPage) : Option String :=
  match page with
  | .error _ => none
  | .ok p =>
    if p.searchResults.isEmpty then none
    else if !p.status200 then none
    else
      match p.infobox with
      | none => none
      | some rows => wikiRowScan rows

/-- `get_genre_wikipedia_track(client, artist, track)`: derives the song query
and delegates to the fetch; `pageFor` maps a query to the observed page. -/
def get_genre_wikipedia_track (pageFor : String → Except Unit WikiPage)
    (artist track : String) : Option String :=
  _fetch_wiki_genre (pageFor (track ++ " " ++ artist ++ " song"))

/-- `get_genre_wikipedia_artist(client, artist, track)`: derives the artist
query and delegates to the fetch. -/
def get_genre_wikipedia_artist (pageFor : String → Except Unit WikiPage)
    (artist _track : String) : Option String :=
  _fetch_wiki_genre (pageFor (artist ++ " musician"))

/-- One audio file as the tag collaborator presents it: `readable` is true when
`mutagen.File` opens it with tags and raises nothing, the four optional fields
are the normalized tag values, and `writeOk` is whether `audiofile.save()` in
`update_genre` would succeed. -/
structure AudioFile where
  filename : String
  readable : Bool
  artist : Option String
  title : Option String
  comment : Option String
  genre : Option String
  writeOk : Bool
deriving Repr, DecidableEq

/-- Replace the write-success flag of a file, leaving every tag field alone. -/
def setWriteOk (f : AudioFile) (w : Bool) : AudioFile :=
  ⟨f.filename, f.readable, f.artist, f.title, f.comment, f.genre, w⟩

/-- `extract_metadata(file_path)`: the `(artist, title, comments, genre)`
tuple, or all `None` when the file is unreadable or artist or title is
missing/empty (`if artist and title:`). -/
def extract_metadata (f : AudioFile) :
    Option String × Option String × Option String × Option String :=
  if f.readable then
    if truthy f.artist && truthy f.title then (f.artist, f.title, f.comment, f.genre)
    else (none, none, none, none)
  else (none, none, none, none)

/-- `update_genre(file_path, genre)`: writes the genre tag; every failure is
swallowed inside the function.  The returned boolean — true exactly when the
save actually happened — is ignored by the caller, as in the source, where
the function returns `None` on every path. -/
def update_genre (f : AudioFile) (genre : String) : Bool :=
  f.readable && f.writeOk

/-- `process_file(providers, file_path)`: extract, skip when already tagged,
resolve through the provider chain, write back, and report
`(filename, final_genre_or_None)`. -/
def process_file (providers : List Provider) (f : AudioFile) : String × Option String :=
  let m := extract_metadata f
  let artist := m.1
  let title := m.2.1
  let genre := m.2.2.2
  if truthy artist && truthy title then
    if truthy genre then (f.filename, genre)
    else
      let new_genre := get_genre providers (artist.getD "") (title.getD "")
      if truthy new_genre then
        let _ := update_genre f (new_genre.getD "")
        (f.filename, new_genre)
      else (f.filename, none)
  else (f.filename, none)

/-- `process_file` instrumented with the provider names invoked for the file,
in invocation order. -/
def process_file_trace (providers : List Provider) (f : AudioFile) :
    (String × Option String) × List String :=
  let m := extract_metadata f
  let artist := m.1
  let title := m.2.1
  let genre := m.2.2.2
  if truthy artist && truthy title then
    if truthy genre then ((f.filename, genre), [])
    else
      let r := get_genre_trace providers (artist.getD "") (title.getD "")
      if truthy r.1 then
        let _ := update_genre f (r.1.getD "")
        ((f.filename, r.1), r.2)
      else ((f.filename, none), r.2)
  else ((f.filename, none), [])

/-- The aggregate report computed at the end of `main`. -/
structure Report where
  total : Nat
  withCount : Nat
  withoutCount : Nat
  withPct : Nat
  withoutPct : Nat
  withGenre : List (String × Option String)
  withoutGenre : List (String × Option String)
deriving Repr, DecidableEq

/-- The report-writing step of `main`: guarded by `if results:`, so no report
exists at all for an empty result list; otherwise the partition into
with/without genre, the counts, and the `count * 100 // total` floor-division
percentages.  Field order: total, withCount, withoutCount, withPct,
withoutPct, withGenre, withoutGenre. -/
def makeReport (results : List (String × Option String)) : Option Report :=
  if results.isEmpty then none
  else
    let with_genre := results.filter (fun p => truthy p.2)
    let without_genre := results.filter (fun p => !truthy p.2)
    let total := results.length
    some ⟨total, with_genre.length, without_genre.length,
      with_genre.length * 100 / total, without_genre.length * 100 / total,
      with_genre, without_genre⟩

/-- A filesystem node: a regular file or a directory whose `children` list is
in `os.listdir` order. -/
inductive FS where
  | file (name : String)
  | dir (name : String) (children : List FS)
deriving Repr

/-- The entry name of a node. -/
def FS.name : FS → String
  | .file n => n
  | .dir n _ => n

/-- The name of a node when it is a regular file. -/
def fileName? : FS → Option String
  | .file n => some n
  | .dir _ _ => none

/-- `SUPPORTED_EXTENSIONS = ('.mp3', '.flac')`. -/
def SUPPORTED_EXTENSIONS : List String := [".mp3", ".flac"]

/-- `filename.lower().endswith(SUPPORTED_EXTENSIONS)`. -/
def supportedExt (filename : String) : Bool :=
  SUPPORTED_EXTENSIONS.any (fun e => pyEndsWith (pyLower filename) e)

/-- `os.path.join(dirpath, name)`. -/
def joinPath (d n : String) : String := d ++ "/" ++ n

/-- The string order `sorted` uses. -/
def strLe (a b : String) : Bool := decide (a ≤ b)

/-- `os.path.isfile(os.path.join(path, n))`: some child of the directory is a
regular file named `n`. -/
def isFileNamed (children : List FS) (n : String) : Bool :=
  children.any (fun c =>
    match c with
    | .file m => m == n
    | .dir _ _ => false)

/-- The `--no-recurse` branch of `main`: iterate `sorted(os.listdir(path))`,
keep regular files whose lowercased name ends in a supported extension, and
process them by full path in that order. -/
def enumerate_flat (path : String) (children : List FS) : List String :=
  (((children.map FS.name).mergeSort strLe).filter
      (fun n => isFileNamed children n && supportedExt n)).map (joinPath path)

mutual

/-- `os.walk(path)` top-down: the top directory first, then, depth-first,
each child directory in `os.listdir` order; each yield is the directory path
with its entries. -/
def walk (path : String) : FS → List (String × List FS)
  | .file _ => []
  | .dir _ children => (path, children) :: walkList path children

/-- The recursion of `walk` over the children of a directory. -/
def walkList (path : String) : List FS → List (String × List FS)
  | [] => []
  | c :: cs => walk (joinPath path c.name) c ++ walkList path cs

end

/-- The per-directory body of the recursive branch of `main`: iterate
`sorted(files)`, keep the supported extensions, process by full path. -/
def dirLevelFiles (root : String) (entries : List FS) : List String :=
  (((entries.filterMap fileName?).mergeSort strLe).filter supportedExt).map (joinPath root)

/-- The recursive branch of `main`: concatenate the per-directory file lists
in `os.walk` order. -/
def enumerate_recursive (path : String) (t : FS) : List String :=
  (walk path t).flatMap (fun pr => dirLevelFiles pr.1 pr.2)

mutual

/-- All regular files anywhere under a node, as (full path, entry name)
pairs, in tree order; the reference enumeration the walk is compared with. -/
def treeFiles (path : String) : FS → List (String × String)
  | .file _ => []
  | .dir _ children => treeFilesList path children

/-- The recursion of `treeFiles` over the children of a directory. -/
def treeFilesList (path : String) : List FS → List (String × String)
  | [] => []
  | .file n :: cs => (joinPath path n, n) :: treeFilesList path cs
  | .dir n sub :: cs =>
    treeFiles (joinPath path n) (.dir n sub) ++ treeFilesList path cs

end

/-- A result is never the empty string: the normalization contract the spec
states for adapter results. -/
def neverEmptyResult (r : Option String) : Prop := ∀ s, r = some s → s ≠ ""

/-- A Wikipedia page whose infobox genre row has a `td` with no `li` elements
and no text: the genre cell is present but empty. -/
def cexWikiPage : WikiPage :=
  ⟨["Some Band"], true, some [⟨some "Genre", some ⟨[], ""⟩⟩]⟩

/-- The Wikipedia track provider entry, with the source answering every query
with `cexWikiPage`. -/
def wikiEmptyProvider : Provider :=
  ⟨"Wikipedia (Track)",
    fun a t => Except.ok (get_genre_wikipedia_track (fun _ => Except.ok cexWikiPage) a t)⟩

/-- A provider whose adapter finds "Rock". -/
def rockProvider : Provider := ⟨"Wikipedia (Artist)", fun _ _ => Except.ok (some "Rock")⟩

/-- A provider whose adapter raises an exception. -/
def raisingProvider : Provider := ⟨"Spotify", fun _ _ => Except.error ()⟩

/-- A provider whose adapter returns `None`. -/
def noneProvider : Provider := ⟨"Last.fm", fun _ _ => Except.ok none⟩

/-- A source that answers every attempt with HTTP 429. -/
def always429 : Nat → SpotifyResponse := fun _ => SpotifyResponse.rateLimit 1

/-- A source that rate-limits the first attempt and succeeds on the second. -/
def resp429once : Nat → SpotifyResponse :=
  fun k => if k = 0 then SpotifyResponse.rateLimit 3 else SpotifyResponse.found ["indie rock"]

/-- Seven per-file outcomes, three of them with a genre. -/
def results7 : List (String × Option String) :=
  [("a.mp3", some "Rock"), ("b.mp3", some "Pop"), ("c.mp3", some "Jazz"),
   ("d.mp3", none), ("e.mp3", none), ("f.mp3", none), ("g.mp3", none)]

/-- The report the program computes for `results7`. -/
def report7 : Report :=
  ⟨7, 3, 4, 42, 57,
   [("a.mp3", some "Rock"), ("b.mp3", some "Pop"), ("c.mp3", some "Jazz")],
   [("d.mp3", none), ("e.mp3", none), ("f.mp3", none), ("g.mp3", none)]⟩

/-- A readable file that already carries a genre tag. -/
def taggedFile : AudioFile :=
  ⟨"song.mp3", true, some "Artist", some "Title", none, some "Rock", true⟩

/-- A readable file whose artist tag is the empty string. -/
def noArtistFile : AudioFile :=
  ⟨"song.mp3", true, some "", some "Title", none, none, true⟩

/-- A readable, untagged file. -/
def untaggedFile : AudioFile :=
  ⟨"song.mp3", true, some "Artist", some "Title", none, none, true⟩

lemma string_eq_empty_of_length_eq_zero {s : String} (h : s.length = 0) : s = "" := by
  cases s with
  | mk data =>
    cases data with
    | nil => rfl
    | cons a l => simp [String.length] at h

lemma append_ne_empty_left {s : String} (t : String) (h : s ≠ "") : s ++ t ≠ "" := by
  intro hc
  apply h
  have hlen := congrArg String.length hc
  rw [String.length_append] at hlen
  exact string_eq_empty_of_length_eq_zero (by
    have : ("" : String).length = 0 := rfl
    omega)

lemma titleChars_length : ∀ (b : Bool) (l : List Char), (titleChars b l).length = l.length := by
  intro b l
  induction l generalizing b with
  | nil => rfl
  | cons c cs ih =>
    by_cases h : c.isAlpha <;> simp [titleChars, h, ih]

lemma pyTitle_ne_empty {s : String} (h : s ≠ "") : pyTitle s ≠ "" := by
  intro hc
  apply h
  have hdata : (titleChars false s.data).length = 0 := by
    have := congrArg String.length hc
    simpa [pyTitle, String.length] using this
  rw [titleChars_length] at hdata
  exact string_eq_empty_of_length_eq_zero hdata

lemma pyJoin_ne_empty (sep : String) :
    ∀ (l : List String), l ≠ [] → (∀ s ∈ l, s ≠ "") → pyJoin sep l ≠ "" := by
  intro l
  match l with
  | [] => intro h; exact absurd rfl h
  | [s] =>
    intro _ hall
    simpa [pyJoin] using hall s (by simp)
  | s :: t :: rest =>
    intro _ hall
    show s ++ sep ++ pyJoin sep (t :: rest) ≠ ""
    exact append_ne_empty_left _ (append_ne_empty_left _ (hall s (by simp)))

lemma get_genre_trace_fst (providers : List Provider) (artist track : String) :
    (get_genre_trace providers artist track).1 = get_genre providers artist track := by
  induction providers with
  | nil => rfl
  | cons p rest ih =>
    simp only [get_genre_trace, get_genre]
    cases h : p.fn artist track with
    | error e => simpa using ih
    | ok result =>
      by_cases ht : truthy result = true
      · simp [ht]
      · simp only [Bool.not_eq_true] at ht
        simpa [ht] using ih

lemma get_genre_some_ne_empty (providers : List Provider) (artist track : String)
    (g : String) (h : get_genre providers artist track = some g) : g ≠ "" := by
  induction providers with
  | nil => simp [get_genre] at h
  | cons p rest ih =>
    cases hf : p.fn artist track with
    | error e =>
      simp only [get_genre, hf] at h
      exact ih h
    | ok result =>
      simp only [get_genre, hf] at h
      by_cases ht : truthy result = true
      · rw [if_pos ht] at h
        subst h
        simpa [truthy] using ht
      · rw [if_neg ht] at h
        exact ih h

lemma length_filter_not (p : α → Bool) (l : List α) :
    (l.filter (fun x => !p x)).length = l.length - (l.filter p).length := by
  have hsum : (l.filter p).length + (l.filter (fun x => !p x)).length = l.length := by
    induction l with
    | nil => rfl
    | cons a l ih =>
      by_cases h : p a <;> simp [List.filter_cons, h] <;> omega
  omega

lemma strLe_trans : ∀ a b c : String, strLe a b = true → strLe b c = true → strLe a c = true := by
  intro a b c hab hbc
  simp only [strLe, decide_eq_true_eq] at *
  exact le_trans hab hbc

lemma strLe_total : ∀ a b : String, (strLe a b || strLe b a) = true := by
  intro a b
  simp only [strLe, Bool.or_eq_true, decide_eq_true_eq]
  exact le_total a b

lemma isFileNamed_iff (children : List FS) (n : String) :
    isFileNamed children n = true ↔ FS.file n ∈ children := by
  simp only [isFileNamed, List.any_eq_true]
  constructor
  · rintro ⟨c, hc, hm⟩
    cases c with
    | file m =>
      simp only [beq_iff_eq] at hm
      subst hm
      exact hc
    | dir m sub => simp at hm
  · intro h
    exact ⟨FS.file n, h, by simp⟩

lemma spotify_always_rate_limited_hung :
    ∀ (fuel attempt : Nat),
      (get_genre_spotify always429 fuel attempt).1 = SpotifyOutcome.hung := by
  intro fuel
  induction fuel with
  | zero => intro attempt; rfl
  | succ k ih =>
    intro attempt
    simpa [get_genre_spotify] using ih (attempt + 1)

/-- C1 counterexample: a provider list whose first adapter returns the
non-`None` result `""` (as the repository's own Wikipedia track adapter does
for a page with an empty genre cell).  `get_genre` does not return that first
non-`None` result: it skips it, invokes the second provider as well, and
returns the second provider's result — the guard is truthiness, not
non-`None`-ness. -/
theorem get_genre_returns_later_provider_after_non_none :
    wikiEmptyProvider.fn "Artist" "Title" = Except.ok (some "") ∧
      get_genre_trace [wikiEmptyProvider, rockProvider] "Artist" "Title" =
        (some "Rock", ["Wikipedia (Track)", "Wikipedia (Artist)"]) :=
  ⟨rfl, rfl⟩

/-- C1 (amended): `get_genre` invokes providers in list order and returns the
first truthy (non-`None` and non-empty) adapter result immediately; providers
after the first truthy result are never invoked, while a provider returning
`None` or the empty string is treated as contributing no result. -/
theorem get_genre_first_truthy_short_circuits (pre : List Provider) (p : Provider)
    (post : List Provider) (artist track : String)
    (hpre : ∀ q ∈ pre, callValue (q.fn artist track) = none)
    (hp : callValue (p.fn artist track) ≠ none) :
    get_genre_trace (pre ++ p :: post) artist track =
      (callValue (p.fn artist track), pre.map Provider.name ++ [p.name]) := by
  induction pre with
  | nil =>
    simp only [List.nil_append, List.map_nil]
    cases hf : p.fn artist track with
    | error e => simp [callValue, hf] at hp
    | ok result =>
      by_cases ht : truthy result = true
      · simp [get_genre_trace, hf, ht, callValue]
      · simp [callValue, hf, ht] at hp
  | cons q qs ih =>
    have hq := hpre q (List.mem_cons_self q qs)
    have ih2 := ih (fun r hr => hpre r (List.mem_cons_of_mem _ hr))
    cases hf : q.fn artist track with
    | error e =>
      simp [get_genre_trace, hf, ih2]
    | ok result =>
      have ht : truthy result = false := by
        by_contra hc
        simp only [Bool.not_eq_false] at hc
        rw [hf] at hq
        simp only [callValue] at hq
        rw [if_pos hc] at hq
        subst hq
        simp [truthy] at hc
      simp [get_genre_trace, hf, ht, ih2]

/-- C1 witness: with a raising provider first, the "Rock" provider second and
another provider third, the resolver returns "Rock" and never invokes the
third provider. -/
theorem get_genre_first_truthy_short_circuits_witness :
    get_genre_trace [raisingProvider, rockProvider, noneProvider] "Artist" "Title" =
      (some "Rock", ["Spotify", "Wikipedia (Artist)"]) := by
  have h := get_genre_first_truthy_short_circuits [raisingProvider] rockProvider
    [noneProvider] "Artist" "Title"
    (by
      intro q hq
      cases hq with
      | head => rfl
      | tail _ hq2 => cases hq2)
    (by decide)
  exact h

/-- C2 counterexample: against a source that answers every attempt with
HTTP 429, the Spotify adapter never returns — no recursion depth suffices —
and each unit of fuel is spent on one more retry, so the number of retries is
not bounded. -/
theorem spotify_never_terminates_on_persistent_429 :
    ¬ spotifyTerminates always429 ∧ (get_genre_spotify always429 5 0).2 = 5 := by
  constructor
  · rintro ⟨fuel, hf⟩
    exact hf (spotify_always_rate_limited_hung fuel 0)
  · rfl

/-- C2 (amended): on a 429 signal, the Spotify adapter sleeps for the
source-provided interval and re-invokes the same lookup recursively with no
retry cap.  A source that rate-limits once and then succeeds yields exactly
one retry and the successful result, but a source that keeps signaling 429
drives the adapter into unbounded retries: it never terminates. -/
theorem spotify_single_rate_limit_single_retry (resp : Nat → SpotifyResponse)
    (n : Nat) (gs : List String) (fuel : Nat)
    (h0 : resp 0 = SpotifyResponse.rateLimit n)
    (h1 : resp 1 = SpotifyResponse.found gs)
    (hgs : gs ≠ []) (hfuel : 2 ≤ fuel) :
    get_genre_spotify resp fuel 0 =
        (SpotifyOutcome.result (some (pyJoin ", " (gs.map pyTitle))), 1) ∧
      ¬ spotifyTerminates always429 := by
  constructor
  · obtain ⟨k, rfl⟩ : ∃ k, fuel = k + 2 := ⟨fuel - 2, by omega⟩
    have hne : gs.isEmpty = false := by
      cases gs with
      | nil => exact absurd rfl hgs
      | cons a l => rfl
    show (get_genre_spotify resp (k + 1 + 1) 0) = _
    rw [get_genre_spotify, h0]
    rw [get_genre_spotify, h1]
    simp [hne]
  · rintro ⟨fuel2, hf⟩
    exact hf (spotify_always_rate_limited_hung fuel2 0)

/-- C2 witness: the one-rate-limit-then-success source, with recursion depth
two, yields the successful joined result after exactly one retry. -/
theorem spotify_single_rate_limit_single_retry_witness :
    get_genre_spotify resp429once 2 0 = (SpotifyOutcome.result (some "Indie Rock"), 1) ∧
      ¬ spotifyTerminates always429 := by
  have h := spotify_single_rate_limit_single_retry resp429once 3 ["indie rock"] 2
    rfl rfl (by decide) (by decide)
  exact h

/-- C3: a file whose extracted metadata has truthy (present and non-empty)
artist, title and existing genre yields the outcome
`(filename, existing genre)` and no provider is invoked; the extracted genre
is exactly the file's pre-existing genre tag. -/
theorem process_file_skips_already_tagged (providers : List Provider) (f : AudioFile)
    (ha : truthy (extract_metadata f).1 = true)
    (ht : truthy (extract_metadata f).2.1 = true)
    (hg : truthy (extract_metadata f).2.2.2 = true) :
    process_file_trace providers f = ((f.filename, f.genre), []) ∧
      (extract_metadata f).2.2.2 = f.genre := by
  have hgenre : (extract_metadata f).2.2.2 = f.genre := by
    unfold extract_metadata at hg ⊢
    by_cases hr : f.readable
    · simp only [hr, if_true]
      by_cases hat : (truthy f.artist && truthy f.title) = true
      · simp [hat]
      · simp only [Bool.not_eq_true] at hat
        simp [hat] at hg
        cases hg
    · simp [hr] at hg
      cases hg
  refine ⟨?_, hgenre⟩
  have hg2 : truthy f.genre = true := by rw [← hgenre]; exact hg
  unfold process_file_trace
  simp [ha, ht, hgenre, hg2]

/-- C3 witness: a file already tagged "Rock" is reported with genre "Rock" and
the provider chain is never consulted. -/
theorem process_file_skips_already_tagged_witness :
    process_file_trace [rockProvider] taggedFile =
        ((taggedFile.filename, taggedFile.genre), []) ∧
      (extract_metadata taggedFile).2.2.2 = taggedFile.genre :=
  process_file_skips_already_tagged [rockProvider] taggedFile rfl rfl rfl

/-- C4: an adapter exception is caught inside `get_genre`, treated as "no
result from this provider", and iteration continues with the next provider;
when every provider raises or returns a falsy result, every provider is
invoked and the resolver returns `None`. -/
theorem get_genre_catches_exceptions_and_exhausts :
    (∀ (p : Provider) (rest : List Provider) (artist track : String),
        p.fn artist track = Except.error () →
        get_genre_trace (p :: rest) artist track =
          ((get_genre_trace rest artist track).1,
            p.name :: (get_genre_trace rest artist track).2)) ∧
    (∀ (providers : List Provider) (artist track : String),
        (∀ q ∈ providers, callValue (q.fn artist track) = none) →
        get_genre_trace providers artist track = (none, providers.map Provider.name)) := by
  constructor
  · intro p rest artist track hf
    simp [get_genre_trace, hf]
  · intro providers artist track
    induction providers with
    | nil => intro _; rfl
    | cons q qs ih =>
      intro hall
      have hq := hall q (List.mem_cons_self q qs)
      have ih2 := ih (fun r hr => hall r (List.mem_cons_of_mem _ hr))
      cases hf : q.fn artist track with
      | error e => simp [get_genre_trace, hf, ih2]
      | ok result =>
        have ht : truthy result = false := by
          by_contra hc
          simp only [Bool.not_eq_false] at hc
          rw [hf] at hq
          simp only [callValue] at hq
          rw [if_pos hc] at hq
          subst hq
          simp [truthy] at hc
        simp [get_genre_trace, hf, ht, ih2]

/-- C4 witness: with one raising provider and one `None` provider, both are
invoked and the resolver returns `None`. -/
theorem get_genre_catches_exceptions_and_exhausts_witness :
    get_genre_trace [raisingProvider, noneProvider] "Artist" "Title" =
      (none, ["Spotify", "Last.fm"]) := by
  have h := get_genre_catches_exceptions_and_exhausts.2
    [raisingProvider, noneProvider] "Artist" "Title"
    (by
      intro q hq
      cases hq with
      | head => rfl
      | tail _ hq2 =>
        cases hq2 with
        | head => rfl
        | tail _ hq3 => cases hq3)
  exact h

lemma pyJoin_titleStrip_eq_empty_iff (items : List String)
    (h : ∀ i ∈ items, pyStrip i ≠ "") :
    pyJoin ", " (items.map (fun i => pyTitle (pyStrip i))) = "" ↔ items = [] := by
  constructor
  · intro hj
    by_contra hne
    exact pyJoin_ne_empty ", " (items.map (fun i => pyTitle (pyStrip i)))
      (by simpa using hne)
      (by
        intro x hx
        rcases List.mem_map.mp hx with ⟨i, hi, rfl⟩
        exact pyTitle_ne_empty (h i hi)) hj
  · intro h2
    subst h2
    rfl

lemma wikiRowScan_shape (rows : List WikiRow) :
    wikiRowScan rows = none ∨
      ∃ items : List String, (∀ i ∈ items, pyStrip i ≠ "") ∧
        wikiRowScan rows =
          some (pyJoin ", " (items.map (fun i => pyTitle (pyStrip i)))) ∧
        (wikiRowScan rows = some "" ↔ items = []) := by
  induction rows with
  | nil => exact Or.inl rfl
  | cons r rest ih =>
    cases hth : r.th with
    | none => simpa [wikiRowScan, hth] using ih
    | some thText =>
      by_cases hgen : isGenreHeader thText = true
      · cases htd : r.td with
        | none => simp [wikiRowScan, hth, hgen, htd]
        | some td =>
          refine Or.inr ?_
          have hmem : ∀ i ∈ (if td.lis.isEmpty then
              pySplitChars (fun c => c == '|' || c == ',') td.rawText
            else td.lis).filter (fun i => pyStrip i != ""), pyStrip i ≠ "" := by
            intro i hi
            simpa using (List.mem_filter.mp hi).2
          have hscan : wikiRowScan (r :: rest) =
              some (pyJoin ", " (((if td.lis.isEmpty then
                  pySplitChars (fun c => c == '|' || c == ',') td.rawText
                else td.lis).filter (fun i => pyStrip i != "")).map
                  (fun i => pyTitle (pyStrip i)))) := by
            simp [wikiRowScan, hth, hgen, htd]
          refine ⟨(if td.lis.isEmpty then
              pySplitChars (fun c => c == '|' || c == ',') td.rawText
            else td.lis).filter (fun i => pyStrip i != ""), hmem, hscan, ?_⟩
          rw [hscan]
          simp only [Option.some.injEq]
          exact pyJoin_titleStrip_eq_empty_iff _ hmem
      · simp only [Bool.not_eq_true] at hgen
        simpa [wikiRowScan, hth, hgen] using ih

lemma get_genre_spotify_shape (resp : Nat → SpotifyResponse) :
    ∀ (fuel attempt : Nat),
      (get_genre_spotify resp fuel attempt).1 = SpotifyOutcome.hung ∨
      (get_genre_spotify resp fuel attempt).1 = SpotifyOutcome.result none ∨
      ∃ gs : List String, gs ≠ [] ∧ (∃ k, resp k = SpotifyResponse.found gs) ∧
        (get_genre_spotify resp fuel attempt).1 =
          SpotifyOutcome.result (some (pyJoin ", " (gs.map pyTitle))) := by
  intro fuel
  induction fuel with
  | zero => intro attempt; exact Or.inl rfl
  | succ f ih =>
    intro attempt
    cases hr : resp attempt with
    | found genres =>
      by_cases hE : genres.isEmpty
      · exact Or.inr (Or.inl (by simp [get_genre_spotify, hr, hE]))
      · refine Or.inr (Or.inr ⟨genres, ?_, ⟨attempt, hr⟩, ?_⟩)
        · intro h
          rw [h] at hE
          exact hE rfl
        · simp [get_genre_spotify, hr, hE]
    | noItems => exact Or.inr (Or.inl (by simp [get_genre_spotify, hr]))
    | rateLimit ra =>
      have heq : (get_genre_spotify resp (f + 1) attempt).1 =
          (get_genre_spotify resp f (attempt + 1)).1 := by
        simp [get_genre_spotify, hr]
      rw [heq]
      exact ih (attempt + 1)
    | apiErr => exact Or.inr (Or.inl (by simp [get_genre_spotify, hr]))
    | exn => exact Or.inr (Or.inl (by simp [get_genre_spotify, hr]))

lemma get_genre_spotify_never_empty (resp : Nat → SpotifyResponse)
    (hresp : ∀ (k : Nat) (gs : List String),
      resp k = SpotifyResponse.found gs → ∀ g ∈ gs, g ≠ "") :
    ∀ (fuel attempt : Nat) (s : String),
      (get_genre_spotify resp fuel attempt).1 = SpotifyOutcome.result (some s) →
        s ≠ "" := by
  intro fuel attempt s hs
  rcases get_genre_spotify_shape resp fuel attempt with h | h | ⟨gs, hne, ⟨k, hk⟩, h⟩
  · rw [hs] at h
    exact SpotifyOutcome.noConfusion h
  · rw [h] at hs
    exact Option.noConfusion (SpotifyOutcome.result.inj hs)
  · rw [h] at hs
    have hseq : s = pyJoin ", " (gs.map pyTitle) :=
      (Option.some.inj (SpotifyOutcome.result.inj hs)).symm
    subst hseq
    exact pyJoin_ne_empty ", " (gs.map pyTitle) (by simpa using hne)
      (by
        intro x hx
        rcases List.mem_map.mp hx with ⟨g, hg, rfl⟩
        exact pyTitle_ne_empty (hresp k gs hk g hg))

/-- C5 counterexample: on a page whose infobox genre row has an empty cell,
the Wikipedia fetch returns the empty string (a `some ""` result, not
`None`), violating the never-empty-string contract. -/
theorem wiki_fetch_returns_empty_string :
    _fetch_wiki_genre (Except.ok cexWikiPage) = some "" ∧
      ¬ neverEmptyResult (_fetch_wiki_genre (Except.ok cexWikiPage)) := by
  refine ⟨rfl, ?_⟩
  intro hne
  exact hne "" rfl rfl

/-- C5 (amended): every adapter result is `None` (or, for the fuel-modelled
Spotify recursion, still running) or a comma-joined, title-cased string of
source terms.  The Spotify, Discogs and Last.fm adapters never return the
empty string provided each individual source term (artist genre,
release genre/style, tag name) is non-empty — their truthiness guards return
`None` when the term list is empty — but the Wikipedia fetch joins its
filtered item list without an emptiness guard and returns the empty string
exactly when the matched genre cell has no non-blank items. -/
theorem adapter_results_comma_joined_title_cased :
    (∀ (resp : Nat → SpotifyResponse) (fuel attempt : Nat),
        (get_genre_spotify resp fuel attempt).1 = SpotifyOutcome.hung ∨
        (get_genre_spotify resp fuel attempt).1 = SpotifyOutcome.result none ∨
        ∃ gs : List String, gs ≠ [] ∧ (∃ k, resp k = SpotifyResponse.found gs) ∧
          (get_genre_spotify resp fuel attempt).1 =
            SpotifyOutcome.result (some (pyJoin ", " (gs.map pyTitle)))) ∧
    (∀ resp : Nat → SpotifyResponse,
        (∀ (k : Nat) (gs : List String),
            resp k = SpotifyResponse.found gs → ∀ g ∈ gs, g ≠ "") →
        ∀ (fuel attempt : Nat) (s : String),
          (get_genre_spotify resp fuel attempt).1 = SpotifyOutcome.result (some s) →
            s ≠ "") ∧
    (∀ resp : Except Unit (Option (List String × List String)),
        get_genre_discogs resp = none ∨
          ∃ gs : List String, gs ≠ [] ∧
            get_genre_discogs resp = some (pyJoin ", " (gs.map pyTitle))) ∧
    (∀ resp : Except Unit (Option (List String × List String)),
        (∀ (genres styles : List String), resp = Except.ok (some (genres, styles)) →
            ∀ g ∈ genres ++ styles, g ≠ "") →
        neverEmptyResult (get_genre_discogs resp)) ∧
    (∀ resp : Except Unit (List String),
        get_genre_lastfm resp = none ∨
          ∃ tags2 : List String, tags2 ≠ [] ∧
            get_genre_lastfm resp = some (pyJoin ", " (tags2.map pyTitle))) ∧
    (∀ tags : List String, (∀ t ∈ tags, t ≠ "") →
        neverEmptyResult (get_genre_lastfm (Except.ok tags))) ∧
    (∀ page : Except Unit WikiPage,
        _fetch_wiki_genre page = none ∨
          ∃ items : List String, (∀ i ∈ items, pyStrip i ≠ "") ∧
            _fetch_wiki_genre page =
              some (pyJoin ", " (items.map (fun i => pyTitle (pyStrip i)))) ∧
            (_fetch_wiki_genre page = some "" ↔ items = [])) := by
  refine ⟨get_genre_spotify_shape, get_genre_spotify_never_empty, ?_, ?_, ?_, ?_, ?_⟩
  · intro resp
    cases resp with
    | error e => exact Or.inl rfl
    | ok val =>
      cases val with
      | none => exact Or.inl rfl
      | some gs =>
        by_cases hE : (gs.1 ++ gs.2).isEmpty
        · refine Or.inl ?_
          simp only [get_genre_discogs]
          rw [if_pos hE]
        · refine Or.inr ⟨gs.1 ++ gs.2, ?_, ?_⟩
          · intro h
            rw [h] at hE
            exact hE rfl
          · simp only [get_genre_discogs]
            rw [if_neg hE]
  · intro resp hresp s hs
    cases resp with
    | error e => simp [get_genre_discogs] at hs
    | ok val =>
      cases val with
      | none => simp [get_genre_discogs] at hs
      | some gs =>
        obtain ⟨genres, styles⟩ := gs
        have hall := hresp genres styles rfl
        simp only [get_genre_discogs] at hs
        by_cases hE : (genres ++ styles).isEmpty
        · rw [if_pos hE] at hs
          exact Option.noConfusion hs
        · rw [if_neg hE] at hs
          have hseq : s = pyJoin ", " ((genres ++ styles).map pyTitle) :=
            (Option.some.inj hs).symm
          subst hseq
          exact pyJoin_ne_empty ", " ((genres ++ styles).map pyTitle)
            (by
              intro hmap
              rw [List.map_eq_nil_iff.mp hmap] at hE
              exact hE rfl)
            (by
              intro x hx
              rcases List.mem_map.mp hx with ⟨g, hg, rfl⟩
              exact pyTitle_ne_empty (hall g hg))
  · intro resp
    cases resp with
    | error e => exact Or.inl rfl
    | ok tags =>
      by_cases hg : (tags.filter (fun t => !(lastfm_skip.contains (pyLower t)))).isEmpty
      · refine Or.inl ?_
        simp only [get_genre_lastfm]
        rw [if_pos hg]
      · refine Or.inr ⟨tags.filter (fun t => !(lastfm_skip.contains (pyLower t))), ?_, ?_⟩
        · intro hnil
          rw [hnil] at hg
          exact hg rfl
        · simp only [get_genre_lastfm]
          rw [if_neg hg]
  · intro tags hall s hs hempty
    subst hempty
    simp only [get_genre_lastfm] at hs
    by_cases hg : (tags.filter (fun t => !(lastfm_skip.contains (pyLower t)))).isEmpty
    · rw [if_pos hg] at hs
      exact Option.noConfusion hs
    · rw [if_neg hg] at hs
      have hne : tags.filter (fun t => !(lastfm_skip.contains (pyLower t))) ≠ [] := by
        simpa [List.isEmpty_iff] using hg
      have hjoin := pyJoin_ne_empty ", "
        ((tags.filter (fun t => !(lastfm_skip.contains (pyLower t)))).map pyTitle)
        (by simpa using hne)
        (by
          intro x hx
          rcases List.mem_map.mp hx with ⟨t, htmem, rfl⟩
          exact pyTitle_ne_empty (hall t (List.mem_of_mem_filter htmem)))
      exact hjoin (Option.some.inj hs)
  · intro page
    cases page with
    | error e => exact Or.inl rfl
    | ok p =>
      by_cases hs : p.searchResults.isEmpty
      · exact Or.inl (by simp [_fetch_wiki_genre, hs])
      · by_cases hst : p.status200
        · cases hbox : p.infobox with
          | none => exact Or.inl (by simp [_fetch_wiki_genre, hs, hst, hbox])
          | some rows =>
            have heq : _fetch_wiki_genre (Except.ok p) = wikiRowScan rows := by
              simp [_fetch_wiki_genre, hs, hst, hbox]
            rw [heq]
            exact wikiRowScan_shape rows
        · simp only [Bool.not_eq_true] at hst
          exact Or.inl (by simp [_fetch_wiki_genre, hs, hst])

/-- C5 witness: non-empty source terms yield non-empty results from the
Spotify, Discogs and Last.fm adapters. -/
theorem adapter_results_comma_joined_title_cased_witness :
    pyJoin ", " (["pop"].map pyTitle) ≠ "" ∧
      neverEmptyResult (get_genre_discogs (Except.ok (some (["rock"], ["indie"])))) ∧
      neverEmptyResult (get_genre_lastfm (Except.ok ["rock", "seen live"])) :=
  ⟨adapter_results_comma_joined_title_cased.2.1 (fun _ => SpotifyResponse.found ["pop"])
      (by
        intro k gs hk
        cases SpotifyResponse.found.inj hk
        decide) 1 0 (pyJoin ", " (["pop"].map pyTitle)) rfl,
   adapter_results_comma_joined_title_cased.2.2.2.1
      (Except.ok (some (["rock"], ["indie"])))
      (by
        intro genres styles hk
        cases Option.some.inj (Except.ok.inj hk)
        decide),
   adapter_results_comma_joined_title_cased.2.2.2.2.2.1 ["rock", "seen live"] (by decide)⟩

/-- C6: for a readable file with truthy artist and title, no existing genre,
and a resolver result `some g`, `process_file` reports genre `g` whatever the
write flag is — and with the flag down the save really fails, without
changing the reported genre. -/
theorem process_file_genre_independent_of_write (providers : List Provider)
    (f : AudioFile) (a t g : String)
    (hr : f.readable = true) (ha : f.artist = some a) (ha2 : a ≠ "")
    (ht : f.title = some t) (ht2 : t ≠ "")
    (hg : truthy f.genre = false)
    (hres : get_genre providers a t = some g) :
    (∀ w : Bool,
        process_file_trace providers (setWriteOk f w) =
          ((f.filename, some g), (get_genre_trace providers a t).2)) ∧
      update_genre (setWriteOk f false) g = false := by
  have hg2 : g ≠ "" := get_genre_some_ne_empty providers a t g hres
  have htrace : (get_genre_trace providers a t).1 = some g := by
    rw [get_genre_trace_fst]; exact hres
  constructor
  · intro w
    have hta : truthy (some a) = true := by simpa [truthy] using ha2
    have htt : truthy (some t) = true := by simpa [truthy] using ht2
    have hext : extract_metadata (setWriteOk f w) = (some a, some t, f.comment, f.genre) := by
      simp [extract_metadata, setWriteOk, hr, ha, ht, hta, htt]
    unfold process_file_trace
    rw [hext]
    simp only [hta, htt, Bool.and_self, if_true, hg, Option.getD_some]
    rw [if_neg (by simp [hg])]
    rw [if_pos (by simp [htrace, truthy, hg2])]
    simp [setWriteOk, htrace]
  · simp [update_genre, setWriteOk]

/-- C6 witness: an untagged file resolved to "Rock" through the chain reports
genre "Rock" even though the write-back fails. -/
theorem process_file_genre_independent_of_write_witness :
    process_file_trace [rockProvider] (setWriteOk untaggedFile false) =
        (("song.mp3", some "Rock"), ["Wikipedia (Artist)"]) ∧
      update_genre (setWriteOk untaggedFile false) "Rock" = false := by
  have h := process_file_genre_independent_of_write [rockProvider] untaggedFile
    "Artist" "Title" "Rock" rfl rfl (by decide) rfl (by decide) rfl rfl
  exact ⟨h.1 false, h.2⟩

/-- C7: when the extracted artist or title is not truthy (absent or empty),
`process_file` reports genre `None` and invokes no provider. -/
theorem process_file_missing_key_no_query (providers : List Provider) (f : AudioFile)
    (h : truthy (extract_metadata f).1 = false ∨ truthy (extract_metadata f).2.1 = false) :
    process_file_trace providers f = ((f.filename, none), []) := by
  unfold process_file_trace
  rcases h with h | h <;> simp [h]

/-- C7 witness: a file whose artist tag is the empty string is reported with
genre `None` and the provider chain is never consulted. -/
theorem process_file_missing_key_no_query_witness :
    process_file_trace [rockProvider] noArtistFile =
      ((noArtistFile.filename, none), []) :=
  process_file_missing_key_no_query [rockProvider] noArtistFile (Or.inl rfl)

/-- C8: for a non-empty result list, the report's percentages are the integer
floor divisions `k * 100 / N` and `(N - k) * 100 / N`, where `N` is the total
and `k` the number of outcomes with a truthy genre. -/
theorem report_floor_division_percentages (results : List (String × Option String))
    (hne : results ≠ []) (r : Report) (hr : makeReport results = some r) :
    r.total = results.length ∧
    r.withCount = (results.filter (fun p => truthy p.2)).length ∧
    r.withoutCount = r.total - r.withCount ∧
    r.withPct = r.withCount * 100 / r.total ∧
    r.withoutPct = (r.total - r.withCount) * 100 / r.total := by
  have hempty : results.isEmpty = false := by simpa [List.isEmpty_iff] using hne
  unfold makeReport at hr
  rw [hempty] at hr
  simp only [Bool.false_eq_true, if_false, Option.some.injEq] at hr
  subst hr
  refine ⟨rfl, rfl, ?_, rfl, ?_⟩
  · exact length_filter_not (fun p => truthy p.2) results
  · rw [← length_filter_not (fun p => truthy p.2) results]

/-- C8 witness: seven files with three tagged give 42% and 57%. -/
theorem report_floor_division_percentages_witness :
    (report7.total = results7.length ∧
      report7.withCount = (results7.filter (fun p => truthy p.2)).length ∧
      report7.withoutCount = report7.total - report7.withCount ∧
      report7.withPct = report7.withCount * 100 / report7.total ∧
      report7.withoutPct = (report7.total - report7.withCount) * 100 / report7.total) ∧
    report7.withPct = 42 ∧ report7.withoutPct = 57 :=
  ⟨report_floor_division_percentages results7 (by decide) report7 (by decide),
   rfl, rfl⟩

/-- C10: when the batch produced no outcomes there is no report at all — the
report step, including its divisions by the total, is guarded by the
non-emptiness of the result list, so a report exists exactly when at least
one file was processed. -/
theorem no_report_for_empty_run :
    makeReport [] = none ∧
      ∀ results : List (String × Option String),
        (makeReport results).isSome = !results.isEmpty := by
  constructor
  · rfl
  · intro results
    cases results with
    | nil => rfl
    | cons a l => simp [makeReport]

lemma dirLevelFiles_perm (root : String) (entries : List FS) :
    (dirLevelFiles root entries).Perm
      (((entries.filterMap fileName?).filter supportedExt).map (joinPath root)) :=
  ((List.mergeSort_perm (entries.filterMap fileName?) strLe).filter
      supportedExt).map (joinPath root)

lemma walkList_flatMap (g : String × List FS → List String) (path : String) :
    ∀ cs : List FS,
      (walkList path cs).flatMap g =
        cs.flatMap (fun c => (walk (joinPath path c.name) c).flatMap g) := by
  intro cs
  induction cs with
  | nil => rfl
  | cons c cs ih => simp [walkList, List.flatMap_append, ih]

lemma enumerate_recursive_dir (path n : String) (children : List FS) :
    enumerate_recursive path (FS.dir n children) =
      dirLevelFiles path children ++
        children.flatMap (fun c => enumerate_recursive (joinPath path c.name) c) := by
  unfold enumerate_recursive
  show ((path, children) :: walkList path children).flatMap _ = _
  rw [List.flatMap_cons, walkList_flatMap]

lemma enum_treeFilesList_perm :
    ∀ (N : Nat) (cs : List FS) (path : String), sizeOf cs ≤ N →
      ((((cs.filterMap fileName?).filter supportedExt).map (joinPath path)) ++
          cs.flatMap (fun c => enumerate_recursive (joinPath path c.name) c)).Perm
        (((treeFilesList path cs).filter (fun pr => supportedExt pr.2)).map Prod.fst) := by
  intro N
  induction N with
  | zero =>
    intro cs path h
    cases cs with
    | nil => simp [treeFilesList]
    | cons c cs2 =>
      exfalso
      simp only [List.cons.sizeOf_spec] at h
      omega
  | succ N ih =>
    intro cs path h
    match cs with
    | [] => simp [treeFilesList]
    | FS.file n :: cs2 =>
      have hcs2 : sizeOf cs2 ≤ N := by
        simp only [List.cons.sizeOf_spec, FS.file.sizeOf_spec] at h
        omega
      have IH := ih cs2 path hcs2
      have hfileenum : enumerate_recursive (joinPath path (FS.file n).name) (FS.file n) = [] := rfl
      by_cases hs : supportedExt n = true
      · simp only [List.filterMap_cons, fileName?, List.filter_cons, hs, if_true,
          List.map_cons, treeFilesList, List.flatMap_cons, hfileenum, List.nil_append,
          List.cons_append]
        exact IH.cons (joinPath path n)
      · simp only [Bool.not_eq_true] at hs
        simp only [List.filterMap_cons, fileName?, List.filter_cons, hs,
          Bool.false_eq_true, if_false, treeFilesList, List.flatMap_cons, hfileenum,
          List.nil_append]
        exact IH
    | FS.dir n sub :: cs2 =>
      have hsub : sizeOf sub ≤ N := by
        simp only [List.cons.sizeOf_spec, FS.dir.sizeOf_spec] at h
        omega
      have hcs2 : sizeOf cs2 ≤ N := by
        simp only [List.cons.sizeOf_spec, FS.dir.sizeOf_spec] at h
        omega
      have IHsub := ih sub (joinPath path n) hsub
      have IHcs := ih cs2 path hcs2
      have hdir : (enumerate_recursive (joinPath path n) (FS.dir n sub)).Perm
          (((treeFilesList (joinPath path n) sub).filter
              (fun pr => supportedExt pr.2)).map Prod.fst) := by
        rw [enumerate_recursive_dir]
        exact ((dirLevelFiles_perm (joinPath path n) sub).append_right _).trans IHsub
      simp only [List.filterMap_cons, fileName?, treeFilesList, List.flatMap_cons,
        List.filter_append, List.map_append, FS.name]
      have h1 : ((((cs2.filterMap fileName?).filter supportedExt).map (joinPath path) ++
            (enumerate_recursive (joinPath path n) (FS.dir n sub) ++
              cs2.flatMap (fun c => enumerate_recursive (joinPath path c.name) c)))).Perm
          ((((cs2.filterMap fileName?).filter supportedExt).map (joinPath path) ++
              enumerate_recursive (joinPath path n) (FS.dir n sub)) ++
            cs2.flatMap (fun c => enumerate_recursive (joinPath path c.name) c)) := by
        rw [List.append_assoc]
      have h2 : ((((cs2.filterMap fileName?).filter supportedExt).map (joinPath path) ++
              enumerate_recursive (joinPath path n) (FS.dir n sub)) ++
            cs2.flatMap (fun c => enumerate_recursive (joinPath path c.name) c)).Perm
          ((enumerate_recursive (joinPath path n) (FS.dir n sub) ++
              ((cs2.filterMap fileName?).filter supportedExt).map (joinPath path)) ++
            cs2.flatMap (fun c => enumerate_recursive (joinPath path c.name) c)) :=
        List.perm_append_comm.append_right
          (cs2.flatMap (fun c => enumerate_recursive (joinPath path c.name) c))
      have h3 : ((enumerate_recursive (joinPath path n) (FS.dir n sub) ++
            ((cs2.filterMap fileName?).filter supportedExt).map (joinPath path)) ++
            cs2.flatMap (fun c => enumerate_recursive (joinPath path c.name) c)).Perm
          (enumerate_recursive (joinPath path n) (FS.dir n sub) ++
            (((cs2.filterMap fileName?).filter supportedExt).map (joinPath path) ++
              cs2.flatMap (fun c => enumerate_recursive (joinPath path c.name) c))) := by
        rw [List.append_assoc]
      exact ((h1.trans h2).trans h3).trans (List.Perm.append hdir IHcs)

lemma enumerate_recursive_perm (path : String) (t : FS) :
    (enumerate_recursive path t).Perm
      (((treeFiles path t).filter (fun pr => supportedExt pr.2)).map Prod.fst) := by
  cases t with
  | file n => simp [enumerate_recursive, walk, treeFiles]
  | dir n children =>
    rw [enumerate_recursive_dir]
    exact ((dirLevelFiles_perm path children).append_right _).trans
      (enum_treeFilesList_perm (sizeOf children) children path le_rfl)

lemma mem_enumerate_flat (path : String) (children : List FS) (q : String) :
    q ∈ enumerate_flat path children ↔
      ∃ n, FS.file n ∈ children ∧ supportedExt n = true ∧ q = joinPath path n := by
  unfold enumerate_flat
  constructor
  · intro hq
    rcases List.mem_map.mp hq with ⟨n, hn, rfl⟩
    rcases List.mem_filter.mp hn with ⟨_, hpred⟩
    rcases Bool.and_eq_true_iff.mp hpred with ⟨hfile, hsup⟩
    exact ⟨n, (isFileNamed_iff children n).mp hfile, hsup, rfl⟩
  · rintro ⟨n, hmem, hsup, rfl⟩
    refine List.mem_map.mpr ⟨n, ?_, rfl⟩
    refine List.mem_filter.mpr ⟨?_, ?_⟩
    · exact List.mem_mergeSort.mpr (List.mem_map.mpr ⟨FS.file n, hmem, rfl⟩)
    · exact Bool.and_eq_true_iff.mpr ⟨(isFileNamed_iff children n).mpr hmem, hsup⟩

lemma enumerate_flat_sorted (path : String) (children : List FS) :
    ∃ ns : List String, enumerate_flat path children = ns.map (joinPath path) ∧
      List.Pairwise (fun a b => strLe a b = true) ns :=
  ⟨((children.map FS.name).mergeSort strLe).filter
      (fun n => isFileNamed children n && supportedExt n),
    rfl, (List.sorted_mergeSort strLe_trans strLe_total (children.map FS.name)).filter _⟩

lemma dirLevelFiles_sorted (root : String) (entries : List FS) :
    ∃ ns : List String, dirLevelFiles root entries = ns.map (joinPath root) ∧
      List.Pairwise (fun a b => strLe a b = true) ns :=
  ⟨((entries.filterMap fileName?).mergeSort strLe).filter supportedExt,
    rfl,
    (List.sorted_mergeSort strLe_trans strLe_total (entries.filterMap fileName?)).filter _⟩

/-- C9: directory enumeration.  Non-recursively, the enumerated paths are
exactly the top-level regular files with a supported extension, as the joined
paths of a lexicographically sorted name list.  Recursively, the enumeration
of a directory is its own (per-level sorted) supported files followed
depth-first by the enumerations of its children in listdir order, and overall
it enumerates exactly the supported files of the whole subtree. -/
theorem enumeration_exact_sorted_depth_first :
    (∀ (path : String) (children : List FS) (q : String),
        q ∈ enumerate_flat path children ↔
          ∃ n, FS.file n ∈ children ∧ supportedExt n = true ∧ q = joinPath path n) ∧
    (∀ (path : String) (children : List FS),
        ∃ ns : List String, enumerate_flat path children = ns.map (joinPath path) ∧
          List.Pairwise (fun a b => strLe a b = true) ns) ∧
    (∀ (root : String) (entries : List FS),
        ∃ ns : List String, dirLevelFiles root entries = ns.map (joinPath root) ∧
          List.Pairwise (fun a b => strLe a b = true) ns) ∧
    (∀ (path n : String) (children : List FS),
        enumerate_recursive path (FS.dir n children) =
          dirLevelFiles path children ++
            children.flatMap (fun c => enumerate_recursive (joinPath path c.name) c)) ∧
    (∀ (path : String) (t : FS),
        (enumerate_recursive path t).Perm
          (((treeFiles path t).filter (fun pr => supportedExt pr.2)).map Prod.fst)) :=
  ⟨mem_enumerate_flat, enumerate_flat_sorted, dirLevelFiles_sorted,
    enumerate_recursive_dir, enumerate_recursive_perm⟩

end MutagenTagger
